import Mathlib

/-!
Verification of the threads_parser repository: a shallow embedding of the
extraction, projection, deduplication and pagination logic of
`src/en_thread_parser.py` and `src/main.py`, together with theorems that
settle the specification claims about those functions.

JSON values (the payload of the embedded script blocks) are modelled by
the mutually inductive types `JVal`/`JList`/`JFields` (mutual rather than
nested so that every function on them is structurally recursive and
computes); Python truthiness, `str()` rendering and the jmespath
sub-language actually used by the two `parse_thread` functions are
modelled explicitly.
-/

mutual
/-- A JSON value as produced by `json.loads`: null, booleans, integers,
strings, arrays and objects (object fields in document order). -/
inductive JVal where
  | null : JVal
  | bool : Bool → JVal
  | int : Int → JVal
  | str : String → JVal
  | arr : JList → JVal
  | obj : JFields → JVal

/-- The elements of a JSON array. -/
inductive JList where
  | nil : JList
  | cons : JVal → JList → JList

/-- The fields of a JSON object, in document order. -/
inductive JFields where
  | nil : JFields
  | cons : String → JVal → JFields → JFields
end

/-- Concatenation of JSON array element lists. -/
def JList.append : JList → JList → JList
  | .nil, ys => ys
  | .cons x xs, ys => .cons x (JList.append xs ys)

/-- The elements of a JSON array as an ordinary list. -/
def JList.toList : JList → List JVal
  | .nil => []
  | .cons x xs => x :: JList.toList xs

/-- An ordinary list of JSON values as a JSON array element list. -/
def JList.ofList : List JVal → JList
  | [] => .nil
  | x :: xs => .cons x (JList.ofList xs)

/-- Field-name/value pairs of a JSON object as an ordinary list. -/
def JFields.toList : JFields → List (String × JVal)
  | .nil => []
  | .cons k v fs => (k, v) :: JFields.toList fs

/-- An ordinary association list as JSON object fields. -/
def JFields.ofList : List (String × JVal) → JFields
  | [] => .nil
  | (k, v) :: fs => .cons k v (JFields.ofList fs)

/-- Shorthand for a JSON array literal. -/
def jarr (xs : List JVal) : JVal := .arr (JList.ofList xs)

/-- Shorthand for a JSON object literal. -/
def jobj (fs : List (String × JVal)) : JVal := .obj (JFields.ofList fs)

/-- Python truthiness (`bool(v)`) of a JSON value: `None`, `0`, `""`,
`[]` and `{}` are falsy, everything else is truthy. -/
def pyTruthy : JVal → Bool
  | .null => false
  | .bool b => b
  | .int n => n != 0
  | .str s => s != ""
  | .arr .nil => false
  | .arr (.cons _ _) => true
  | .obj .nil => false
  | .obj (.cons _ _ _) => true

/-- Python `isinstance(v, int)`: true for ints and booleans
(`bool` is a subclass of `int` in Python). -/
def pyIsInt : JVal → Bool
  | .int _ => true
  | .bool _ => true
  | _ => false

mutual
/-- Python `repr()` of a JSON value (the form used when a non-string
value is interpolated inside a container). -/
def pyRepr : JVal → String
  | .null => "None"
  | .bool true => "True"
  | .bool false => "False"
  | .int n => toString n
  | .str s =>
      String.singleton (Char.ofNat 39) ++ s ++ String.singleton (Char.ofNat 39)
  | .arr xs => "[" ++ pyReprList xs ++ "]"
  | .obj fs => "\x7b" ++ pyReprFields fs ++ "\x7d"

/-- Comma-separated reprs of array elements. -/
def pyReprList : JList → String
  | .nil => ""
  | .cons x .nil => pyRepr x
  | .cons x rest => pyRepr x ++ ", " ++ pyReprList rest

/-- Comma-separated reprs of object fields. -/
def pyReprFields : JFields → String
  | .nil => ""
  | .cons k v .nil =>
      String.singleton (Char.ofNat 39) ++ k ++ String.singleton (Char.ofNat 39)
        ++ ": " ++ pyRepr v
  | .cons k v rest =>
      String.singleton (Char.ofNat 39) ++ k ++ String.singleton (Char.ofNat 39)
        ++ ": " ++ pyRepr v ++ ", " ++ pyReprFields rest
end

/-- Python `str()` of a JSON value: strings render as themselves,
`None` renders as `"None"`, other values via `repr`-like rendering. -/
def pyStr : JVal → String
  | .str s => s
  | v => pyRepr v

/-- Value of the first field named `key` of a field list, `null` when
absent. -/
def JFields.get : JFields → String → JVal
  | .nil, _ => .null
  | .cons k v fs, key => if k = key then v else JFields.get fs key

/-- jmespath field access `v.key`: value of the first field named `key`
of an object, `null` on anything else (including `null` itself). -/
def jget (v : JVal) (key : String) : JVal :=
  match v with
  | .obj fs => fs.get key
  | _ => .null

/-- One level of jmespath array flattening: elements that are arrays are
spliced, other elements kept. -/
def jFlattenList : JList → JList
  | .nil => .nil
  | .cons v rest =>
    match v with
    | .arr ys => JList.append ys (jFlattenList rest)
    | w => .cons w (jFlattenList rest)

/-- jmespath flatten operator `v[]`: splices array elements that are
themselves arrays; `null` on a non-array. -/
def jFlatten : JVal → JVal
  | .arr xs => .arr (jFlattenList xs)
  | _ => .null

/-- Field access mapped over array elements with `null` results dropped
(the projection part of `a[].b`). -/
def jProjectList (key : String) : JList → JList
  | .nil => .nil
  | .cons e rest =>
    match jget e key with
    | .null => jProjectList key rest
    | r => .cons r (jProjectList key rest)

/-- jmespath projection `.key` over a flattened array: applies the field
access to every element and drops `null` results; `null` on a
non-array. -/
def jProject (v : JVal) (key : String) : JVal :=
  match v with
  | .arr xs => .arr (jProjectList key xs)
  | _ => .null

/-- The i-th element of an array element list, `null` when out of
bounds. -/
def JList.getIdx : JList → Nat → JVal
  | .nil, _ => .null
  | .cons x _, 0 => x
  | .cons _ xs, n + 1 => JList.getIdx xs n

/-- jmespath index `v[i]`: the i-th element of an array, `null` when out
of bounds or on a non-array. -/
def jIndex (v : JVal) (i : Nat) : JVal :=
  match v with
  | .arr xs => xs.getIdx i
  | _ => .null

/-- Numeric value of a run of decimal digits (Python `int(...)` on a
digit string). -/
def digitsVal (cs : List Char) : Nat :=
  cs.foldl (fun a c => a * 10 + (c.toNat - 48)) 0

/-- First contiguous run of decimal digits of a string, as matched by
`re.search(r"\d+", s)` in `main.py`; `none` when the string has no digit. -/
def firstDigitRun (s : String) : Option Nat :=
  let run := (s.toList.dropWhile (fun c => !c.isDigit)).takeWhile Char.isDigit
  if run.isEmpty then none else some (digitsVal run)

/-- Reply-count coercion of `en_thread_parser.parse_thread`
(src/en_thread_parser.py lines 85-91): only a truthy, non-int value is
touched; `str(v)` is split on single spaces and the first token is
parsed when it is a non-empty all-digit token, otherwise the result is 0.
A falsy value (`None`, `0`, `""`) is left unchanged. -/
def enCoerceReply (v : JVal) : JVal :=
  if pyTruthy v && !pyIsInt v then
    let first := (pyStr v).toList.takeWhile (fun c => c != ' ')
    if !first.isEmpty && first.all Char.isDigit then
      .int (digitsVal first)
    else
      .int 0
  else v

/-- Reply-count coercion of `main.parse_thread` (src/main.py lines
35-42): ints (and bools) pass through, a string yields its first
contiguous digit run (default 0), and otherwise `int(rc or 0)` is taken,
which is 0 for falsy values and a `TypeError` for truthy non-numbers. -/
def mainCoerceReply : JVal → Except String JVal
  | .int n => .ok (.int n)
  | .bool b => .ok (.bool b)
  | .str s =>
    .ok (.int (match firstDigitRun s with
               | some m => (m : Int)
               | none => 0))
  | .null => .ok (.int 0)
  | .arr .nil => .ok (.int 0)
  | .obj .nil => .ok (.int 0)
  | .arr (.cons _ _) => .error "TypeError"
  | .obj (.cons _ _ _) => .error "TypeError"

/-- The normalized record produced by `en_thread_parser.parse_thread`. -/
structure EnRecord where
  text : JVal
  published_on : JVal
  id : JVal
  code : JVal
  username : JVal
  like_count : JVal
  reply_count : JVal
  image_count : JVal
  videos : JVal
  url : String
  repost_count : Nat

/-- `en_thread_parser.parse_thread` (src/en_thread_parser.py lines
66-95): the jmespath multiselect yields `None` exactly when the input
value is `null` (the `if not result: return None` branch); otherwise
every field is extracted with null-propagating path lookups, the
reply count is coerced, the url is derived from username and code, and
`repost_count` is fixed to 0. -/
def parseThreadEn (data : JVal) : Option EnRecord :=
  match data with
  | .null => none
  | _ =>
    let post := jget data "post"
    let username := jget (jget post "user") "username"
    let code := jget post "code"
    some {
      text := jget (jget post "caption") "text"
      published_on := jget post "taken_at"
      id := jget post "id"
      code := code
      username := username
      like_count := jget post "like_count"
      reply_count := enCoerceReply (jget data "view_replies_cta_string")
      image_count := jget post "carousel_media_count"
      videos := jProject (jFlatten (jget post "video_versions")) "url"
      url := "https://www.threads.net/@" ++ pyStr username ++ "/post/" ++ pyStr code
      repost_count := 0 }

mutual
/-- `nested_lookup(key, document)` on a value: document-order search of
the whole JSON tree for every field named `key`. -/
def nestedLookup (key : String) : JVal → List JVal
  | .obj fs => nestedLookupFields key fs
  | .arr xs => nestedLookupList key xs
  | _ => []

/-- `nested_lookup` over array elements. -/
def nestedLookupList (key : String) : JList → List JVal
  | .nil => []
  | .cons v rest => nestedLookup key v ++ nestedLookupList key rest

/-- `nested_lookup` over object fields: the value of a matching field is
emitted before the search descends into that value. -/
def nestedLookupFields (key : String) : JFields → List JVal
  | .nil => []
  | .cons k v rest =>
    (if k = key then [v] else []) ++ nestedLookup key v ++
      nestedLookupFields key rest
end

/-- Whether `pat` occurs as a contiguous sublist of the second list. -/
def listInfix (pat : List Char) : List Char → Bool
  | [] => pat.isEmpty
  | c :: rest => pat.isPrefixOf (c :: rest) || listInfix pat rest

/-- Python substring test `pat in raw` (case-sensitive). -/
def containsSub (raw pat : String) : Bool :=
  listInfix pat.toList raw.toList

/-- The structural marker literal: the name ScheduledServerJS surrounded by JSON double quotes. -/
def mStructural : String := "\"ScheduledServerJS\""

/-- The content marker literal `"thread_items"`. -/
def mContent : String := "thread_items"

/-- A script block qualifies when it contains both marker literals as
case-sensitive substrings. -/
def qualifies (raw : String) : Bool :=
  containsSub raw mStructural && containsSub raw mContent

/-- Python iteration `for t in group` over a JSON value: arrays yield
their elements, strings their characters, objects their keys; any other
value raises a `TypeError`. -/
def iterElems : JVal → Except String (List JVal)
  | .arr xs => .ok xs.toList
  | .str s => .ok (s.toList.map fun c => .str (String.singleton c))
  | .obj fs => .ok (fs.toList.map fun kv => .str kv.1)
  | _ => .error "TypeError"

/-- The per-record dedup step of `scrape_thread_page`
(src/en_thread_parser.py lines 118-123): the stringified id is the dedup
key; an unseen record is appended to the posts and its id marked seen. -/
def acceptPost (st : List EnRecord × List String) (r : EnRecord) :
    List EnRecord × List String :=
  let pid := pyStr r.id
  if pid ∈ st.2 then st else (st.1 ++ [r], pid :: st.2)

/-- The per-subtree step of `scrape_thread_page` (src/en_thread_parser.py
lines 115-123): projection followed by dedup; a `None` projection is
skipped silently. -/
def processItem (st : List EnRecord × List String) (t : JVal) :
    List EnRecord × List String :=
  match parseThreadEn t with
  | none => st
  | some r => acceptPost st r

/-- The per-block step of `scrape_thread_page` (src/en_thread_parser.py
lines 104-123): the two-marker filter, the guarded `json.loads` (a parse
failure skips the block), then the nested lookup and the double loop over
groups and subtrees. Iterating a non-iterable group raises. -/
def processBlockEn (parse : String → Option JVal)
    (st : List EnRecord × List String) (raw : String) :
    Except String (List EnRecord × List String) :=
  if qualifies raw then
    match parse raw with
    | none => .ok st
    | some data =>
      (nestedLookup "thread_items" data).foldlM
        (fun st2 g => do
          let ts ← iterElems g
          pure (ts.foldl processItem st2))
        st
  else .ok st

/-- `scrape_thread_page` (src/en_thread_parser.py lines 97-125) given the
list of candidate script-block texts of the page and the external JSON
parser (`json.loads`, modelled as an oracle returning `none` on malformed
input): accumulates posts and page-local seen ids over all blocks and
returns the posts. -/
def scrapeThreadPageEn (parse : String → Option JVal)
    (datasets : List String) : Except String (List EnRecord) :=
  (datasets.foldlM (processBlockEn parse) ([], [])).map (·.1)

/-- The normalized record produced by `main.parse_thread`. -/
structure MainRecord where
  text : JVal
  published_on : JVal
  id : JVal
  pk : JVal
  code : JVal
  username : JVal
  user_pic : JVal
  user_verified : JVal
  user_pk : JVal
  user_id : JVal
  has_audio : JVal
  reply_count : JVal
  like_count : JVal
  images : JVal
  image_count : JVal
  videos : JVal
  url : String

mutual
/-- Structural boolean equality of JSON values (Python `==` on parsed
JSON data). -/
def jvalBeq : JVal → JVal → Bool
  | .null, .null => true
  | .bool a, .bool b => a == b
  | .int a, .int b => a == b
  | .str a, .str b => a == b
  | .arr xs, .arr ys => jlistBeq xs ys
  | .obj fs, .obj gs => jfieldsBeq fs gs
  | _, _ => false

/-- Structural equality of array element lists. -/
def jlistBeq : JList → JList → Bool
  | .nil, .nil => true
  | .cons x xs, .cons y ys => jvalBeq x y && jlistBeq xs ys
  | _, _ => false

/-- Structural equality of object field lists. -/
def jfieldsBeq : JFields → JFields → Bool
  | .nil, .nil => true
  | .cons k v fs, .cons l w gs => k == l && jvalBeq v w && jfieldsBeq fs gs
  | _, _ => false
end

/-- Membership up to structural equality in an array element list. -/
def jlistHas (xs : JList) (v : JVal) : Bool :=
  match xs with
  | .nil => false
  | .cons x rest => jvalBeq x v || jlistHas rest v

/-- First-occurrence deduplication of an array element list. -/
def jlistDedup (acc : JList) : JList → JList
  | .nil => acc
  | .cons v rest =>
    if jlistHas acc v then jlistDedup acc rest
    else jlistDedup (JList.append acc (.cons v .nil)) rest

/-- `list(set(v or []))` applied to the videos field of
`main.parse_thread`: a falsy or null value yields the empty list, an
array is deduplicated (the order of a Python set is unspecified; the
model keeps first occurrences). -/
def pyListSet : JVal → JVal
  | .arr xs => .arr (jlistDedup .nil xs)
  | _ => .arr .nil

/-- `main.parse_thread` (src/main.py lines 11-46): on a `null` subtree
the jmespath multiselect yields `None` and the subsequent subscript
`result["videos"]` raises a `TypeError`; otherwise all fields are
extracted with null-propagating lookups, the videos list is
set-deduplicated, the reply count coerced (possibly raising), and the
url derived from username and code. -/
def mainParseThread (data : JVal) : Except String MainRecord :=
  match data with
  | .null => .error "TypeError"
  | _ =>
    let post := jget data "post"
    let user := jget post "user"
    let username := jget user "username"
    let code := jget post "code"
    let videosRaw := jProject (jFlatten (jget post "video_versions")) "url"
    match mainCoerceReply (jget data "view_replies_cta_string") with
    | .error e => .error e
    | .ok rc =>
      .ok {
        text := jget (jget post "caption") "text"
        published_on := jget post "taken_at"
        id := jget post "id"
        pk := jget post "pk"
        code := code
        username := username
        user_pic := jget user "profile_pic_url"
        user_verified := jget user "is_verified"
        user_pk := jget user "pk"
        user_id := jget user "id"
        has_audio := jget post "has_audio"
        reply_count := rc
        like_count := jget post "like_count"
        images :=
          (match jFlatten (jget post "carousel_media") with
           | .arr xs =>
             .arr (jProjectChain xs)
           | _ => .null)
        image_count := jget post "carousel_media_count"
        videos := pyListSet videosRaw
        url := "https://www.threads.net/@" ++ pyStr username ++ "/post/" ++ pyStr code }
where
  /-- The projection `image_versions2.candidates[1].url` applied to each
  carousel element, dropping `null` results. -/
  jProjectChain : JList → JList
  | .nil => .nil
  | .cons e rest =>
    match jget (jIndex (jget (jget e "image_versions2") "candidates") 1) "url" with
    | .null => jProjectChain rest
    | r => .cons r (jProjectChain rest)

/-- The value returned by `main.scrape_thread`: the first parsed record
as the main post, the remaining ones as replies. -/
structure ThreadResult where
  thread : MainRecord
  replies : List MainRecord

/-- The flattened projection step of `main.scrape_thread` (src/main.py
line 78): `[parse_thread(t) for thread in thread_items for t in thread]`,
where iterating a non-iterable group or a failing projection raises. -/
def parseAllGroups (items : List JVal) : Except String (List MainRecord) := do
  let groups ← items.mapM iterElems
  (groups.flatten).mapM mainParseThread

/-- `main.scrape_thread` (src/main.py lines 65-85) given the candidate
script-block texts and the JSON parse oracle: blocks lacking a marker are
skipped; the first remaining block is `json.loads`-ed without a guard (a
malformed block raises, modelled as `JSONDecodeError`); a block whose
nested lookup is empty is skipped; otherwise all subtrees are projected,
the first record is the thread, the rest the replies (an empty record
list raises `IndexError`); if no block yields data a `ValueError` with
message "could not find thread data in page" is raised. -/
def scrapeThreadMain (parse : String → Option JVal) :
    List String → Except String ThreadResult
  | [] => .error "could not find thread data in page"
  | raw :: rest =>
    if qualifies raw then
      match parse raw with
      | none => .error "JSONDecodeError"
      | some data =>
        let items := nestedLookup "thread_items" data
        if items.isEmpty then scrapeThreadMain parse rest
        else
          match parseAllGroups items with
          | .error e => .error e
          | .ok [] => .error "IndexError"
          | .ok (t :: ts) => .ok ⟨t, ts⟩
    else scrapeThreadMain parse rest

/-- The record-extraction scan underlying `main.scrape_thread`: identical
block selection, returning the full projected record list of the block it
stops at (the `threads` list of src/main.py line 78) before the
thread/replies split. -/
def extractedRecordsMain (parse : String → Option JVal) :
    List String → Except String (List MainRecord)
  | [] => .error "could not find thread data in page"
  | raw :: rest =>
    if qualifies raw then
      match parse raw with
      | none => .error "JSONDecodeError"
      | some data =>
        let items := nestedLookup "thread_items" data
        if items.isEmpty then extractedRecordsMain parse rest
        else parseAllGroups items
    else extractedRecordsMain parse rest

/-- The link-level dedup step of `scrape_english_data`
(src/en_thread_parser.py lines 176-181): an id is accepted iff it is in
neither the seen set of the run nor the persisted set; on acceptance it is
added to the seen set. No presence or non-emptiness check is made. -/
def linkAccept (pid : String) (existing seen : List String) :
    Bool × List String :=
  if pid ∈ seen ∨ pid ∈ existing then (false, seen) else (true, pid :: seen)

/-- Reasons the per-keyword scroll loop of `scrape_english_data`
(src/en_thread_parser.py lines 168-219) stops. -/
inductive ExitReason where
  | capReached : ExitReason
  | noGrowth : ExitReason
  | measureError : ExitReason
  | fuelOut : ExitReason
deriving DecidableEq

/-- The inner per-link collection of one scroll round
(src/en_thread_parser.py lines 171-206), abstracted over the number of
newly accepted records each post page contributes: the batch of each page is
appended whole, and the loop breaks as soon as the running count reaches
the limit. -/
def processLinks (limit : Nat) : Nat → List Nat → Nat
  | count, [] => count
  | count, b :: rest =>
    let c := count + b
    if limit ≤ c then c else processLinks limit c rest

/-- The per-keyword scroll loop of `scrape_english_data`
(src/en_thread_parser.py lines 167-219), driven by the per-round batch
lists and the measured `document.body.scrollHeight` per round (`none`
models a failing evaluate). Per round: the while condition checks the
cap, the visible links are collected, the page is scrolled and the new
height measured; a measurement failure breaks, an unchanged height
breaks, otherwise the stored height is updated and the loop continues.
Fuel bounds the number of rounds of this model. Returns the final
count, the round at which the loop stopped, and why. -/
def scrapeLoop (limit : Nat) (batches : Nat → List Nat)
    (measure : Nat → Option Nat) :
    Nat → Nat → Nat → Nat → Nat × Nat × ExitReason
  | count, _last, r, 0 => (count, r, .fuelOut)
  | count, last, r, fuel + 1 =>
    if limit ≤ count then (count, r, .capReached)
    else
      let c := processLinks limit count (batches r)
      match measure r with
      | none => (c, r, .measureError)
      | some h =>
        if h = last then (c, r, .noGrowth)
        else scrapeLoop limit batches measure c h (r + 1) fuel

/-- The count of accepted records at the start of round `s` (rounds are
numbered from 1; the loop starts round 1 with an empty result list). -/
def countAt (limit : Nat) (batches : Nat → List Nat) : Nat → Nat
  | 0 => 0
  | 1 => 0
  | s + 2 => processLinks limit (countAt limit batches (s + 1)) (batches (s + 1))

/-- The stored `last_height` at the start of round `s`: 0 at round 1
(initial value, src/en_thread_parser.py line 167), afterwards the height
measured in the previous round (assuming no earlier round was stable). -/
def prevHeight (h : Nat → Nat) : Nat → Nat
  | 0 => 0
  | 1 => 0
  | s + 2 => h (s + 1)

/-! ## Concrete fixtures used by the closed theorems below -/

/-- A qualifying script block whose JSON parses and carries thread data. -/
def goodRaw : String := "x\"ScheduledServerJS\"x thread_items ok"

/-- A qualifying script block whose content is not valid JSON. -/
def badRaw : String := "x\"ScheduledServerJS\"x thread_items bad"

/-- A qualifying script block whose JSON parses but holds no
`thread_items` field. -/
def emptyRaw : String := "x\"ScheduledServerJS\"x thread_items empty"

/-- A script block containing neither marker literal. -/
def plainRaw : String := "nothing to see here"

/-- A post subtree with id, code, username and a textual reply count. -/
def postOne : JVal :=
  jobj [("post", jobj [("id", .str "11"), ("code", .str "C1"),
          ("user", jobj [("username", .str "alice")])]),
        ("view_replies_cta_string", .str "2 replies")]

/-- A parsed document with one `thread_items` group of one post. -/
def goodDoc : JVal := jobj [("thread_items", jarr [postOne])]

/-- The `json.loads` oracle for the fixtures: `goodRaw` parses to
`goodDoc`, `emptyRaw` parses to an unrelated object, everything else is
malformed. -/
def parseOracle : String → Option JVal := fun s =>
  if s = goodRaw then some goodDoc
  else if s = emptyRaw then some (jobj [("a", .int 1)])
  else none

/-- The record `main.parse_thread` produces from `postOne`. -/
def sampleRecord : MainRecord :=
  { text := .null, published_on := .null, id := .str "11", pk := .null,
    code := .str "C1", username := .str "alice", user_pic := .null,
    user_verified := .null, user_pk := .null, user_id := .null,
    has_audio := .null, reply_count := .int 2, like_count := .null,
    images := .null, image_count := .null, videos := .arr .nil,
    url := "https://www.threads.net/@alice/post/C1" }

/-- The record `en_thread_parser.parse_thread` produces from the empty
object: every mapped field is `null`, the id stringifies to `"None"` and
the url embeds the literal `None` strings. -/
def nullProjection : EnRecord :=
  { text := .null, published_on := .null, id := .null, code := .null,
    username := .null, like_count := .null, reply_count := .null,
    image_count := .null, videos := .null,
    url := "https://www.threads.net/@None/post/None", repost_count := 0 }

/-- Modelled from the spec: the reply-count coercion as the spec states
it — an integer is kept, a string yields its first contiguous digit run
(0 when there is none), a missing/None value yields 0. -/
def specReplyCoerce : JVal → JVal
  | .int n => .int n
  | .bool b => .bool b
  | .str s =>
    .int (match firstDigitRun s with
          | some m => (m : Int)
          | none => 0)
  | _ => .int 0

/-- An oracle that differs from `parseOracle` only on the non-qualifying
block `plainRaw`. -/
def parseOracleAlt : String → Option JVal := fun s =>
  if s = plainRaw then some goodDoc else parseOracle s

/-- Feeding a sequence of projected records through the dedup
accumulation of `scrape_thread_page` (the fold of `acceptPost` that the
double loop of src/en_thread_parser.py lines 113-123 performs). -/
def feedRecords (st : List EnRecord × List String) (rs : List EnRecord) :
    List EnRecord × List String :=
  rs.foldl acceptPost st

/-! ## Shared helper lemmas -/

/-- Folding a step function over a list in `Except` is unchanged by
removing an element on which the step is the identity. -/
theorem foldlM_skip {σ : Type} (f : σ → String → Except String σ)
    (b : String) (hskip : ∀ st, f st b = .ok st) :
    ∀ (pre rest : List String) (st : σ),
      (pre ++ b :: rest).foldlM f st = (pre ++ rest).foldlM f st := by
  intro pre
  induction pre with
  | nil =>
    intro rest st
    simp only [List.foldlM_cons, hskip, List.nil_append]
    rfl
  | cons a pre ih =>
    intro rest st
    simp only [List.cons_append, List.foldlM_cons]
    cases h : f st a with
    | error e => rfl
    | ok st2 => simp [ih]

/-! ## Claim C1 -/

/-- Claim C1 counterexample: the code accepts records whose ID is absent
or empty. `parse_thread` applied to the empty object yields
`nullProjection`, whose id field is null; the page-level dedup of
`scrape_thread_page` accepts it (its stringified id `"None"` is unseen),
and the link-level accept of `scrape_english_data` accepts the empty
string id against empty seen sets — the claim says both must be
rejected. -/
theorem claim1_counterexample :
    parseThreadEn (jobj []) = some nullProjection ∧
    nullProjection.id = JVal.null ∧
    (acceptPost ([], []) nullProjection).1 = [nullProjection] ∧
    (linkAccept "" [] []).1 = true := by
  exact ⟨rfl, rfl, rfl, rfl⟩

/-- Claim C1 (amended): acceptance is a pure membership test on the
stringified ID — an ID is accepted iff it is absent from both the
persisted set and the seen set of the run, and it is marked seen exactly on
acceptance; the record-level dedup of `scrape_thread_page` likewise
appends a record iff its stringified id is unseen. No presence or
non-emptiness check is made anywhere. -/
theorem claim1_amended (pid : String) (ex seen : List String)
    (st : List EnRecord × List String) (r : EnRecord) :
    ((linkAccept pid ex seen).1 = true ↔ pid ∉ ex ∧ pid ∉ seen) ∧
    ((linkAccept pid ex seen).1 = true →
      (linkAccept pid ex seen).2 = pid :: seen) ∧
    ((acceptPost st r).1 = st.1 ++ [r] ↔ pyStr r.id ∉ st.2) ∧
    (pyStr r.id ∈ st.2 → acceptPost st r = st) := by
  unfold linkAccept acceptPost
  by_cases h1 : pid ∈ seen <;> by_cases h2 : pid ∈ ex <;>
    by_cases h3 : pyStr r.id ∈ st.2 <;>
      simp [h1, h2, h3]

/-- Claim C1 witness: concrete instance of the amended accept/mark
behaviour. -/
theorem claim1_witness :
    ((linkAccept "abc" ["x"] ["y"]).1 = true ↔
      "abc" ∉ ["x"] ∧ "abc" ∉ ["y"]) ∧
    (linkAccept "abc" ["x"] ["y"]).2 = "abc" :: ["y"] := by
  refine ⟨(claim1_amended "abc" ["x"] ["y"] ([], []) nullProjection).1, ?_⟩
  exact (claim1_amended "abc" ["x"] ["y"] ([], []) nullProjection).2.1 rfl

/-! ## Claim C2 -/

/-- Claim C2 counterexample: the projection of `en_thread_parser` does
not follow the stated coercion — a missing reply-count field stays null
instead of becoming 0, and a string whose digits are not its leading
space-token yields 0 instead of the digit-run value 12. -/
theorem claim2_counterexample :
    (parseThreadEn (jobj [("post", jobj [("id", .str "9")])])).map
        EnRecord.reply_count = some JVal.null ∧
    JVal.null ≠ JVal.int 0 ∧
    enCoerceReply (JVal.str "see 12 replies") = JVal.int 0 := by
  refine ⟨rfl, ?_, rfl⟩
  intro h
  exact JVal.noConfusion h

/-- Claim C2 (amended): the coercion of `main.parse_thread` agrees with
the stated rule on every integer, string and missing/None input; the
coercion of `en_thread_parser.parse_thread` keeps integers but leaves a
missing/None value as None (not 0) and parses a string by its first
space-delimited token, so `"128 replies"` gives 128 while
`"see 12 replies"` gives 0. -/
theorem claim2_amended :
    (∀ n : Int, mainCoerceReply (.int n) = .ok (specReplyCoerce (.int n))) ∧
    (∀ s : String, mainCoerceReply (.str s) = .ok (specReplyCoerce (.str s))) ∧
    mainCoerceReply .null = .ok (specReplyCoerce .null) ∧
    (∀ n : Int, enCoerceReply (.int n) = .int n) ∧
    enCoerceReply .null = .null ∧
    enCoerceReply (.str "128 replies") = .int 128 ∧
    enCoerceReply (.str "see 12 replies") = .int 0 := by
  refine ⟨fun n => rfl, fun s => rfl, rfl, fun n => ?_, rfl, rfl, rfl⟩
  simp [enCoerceReply, pyIsInt]

/-! ## Claim C5 -/

/-- Claim C5 counterexample: a subtree from which the mapping produces no
usable id, code or username does not make the projection return null —
`en_thread_parser.parse_thread` returns a full record with null fields
(and a url built from the literal `None`), and `main.parse_thread` on the
null subtree raises a `TypeError` instead of returning null. -/
theorem claim5_counterexample :
    parseThreadEn (jobj [("other", .int 1)]) = some nullProjection ∧
    nullProjection.id = JVal.null ∧ nullProjection.code = JVal.null ∧
    nullProjection.username = JVal.null ∧
    mainParseThread JVal.null = .error "TypeError" := by
  exact ⟨rfl, rfl, rfl, rfl, rfl⟩

/-- Claim C5 (amended): `en_thread_parser.parse_thread` returns null
exactly when the subtree itself is null (the jmespath multiselect yields
nothing only then); the caller `scrape_thread_page` skips a null
projection silently, leaving its accumulator unchanged. -/
theorem claim5_amended :
    (∀ data : JVal, parseThreadEn data = none ↔ data = JVal.null) ∧
    (∀ (st : List EnRecord × List String) (t : JVal),
      parseThreadEn t = none → processItem st t = st) := by
  constructor
  · intro data
    cases data <;> simp [parseThreadEn]
  · intro st t h
    simp [processItem, h]

/-- Claim C5 witness: concrete instances of the amended statement. -/
theorem claim5_witness :
    (parseThreadEn (JVal.str "x") = none ↔ JVal.str "x" = JVal.null) ∧
    processItem ([], []) JVal.null = ([], []) := by
  refine ⟨claim5_amended.1 (JVal.str "x"), ?_⟩
  exact claim5_amended.2 ([], []) JVal.null rfl

/-! ## Claim C6 -/

/-- A qualifying block whose JSON fails to parse is a no-op for the block
step of `scrape_thread_page` (the `except` branch logs and continues). -/
theorem processBlockEn_malformed (parse : String → Option JVal)
    (st : List EnRecord × List String) (raw : String)
    (hq : qualifies raw = true) (hp : parse raw = none) :
    processBlockEn parse st raw = .ok st := by
  simp [processBlockEn, hq, hp]

/-- Claim C6 counterexample: in `main.scrape_thread` the `json.loads` of
a qualifying block is not guarded, so a malformed qualifying block aborts
the extraction of the whole page with a JSON decode error — even though the
page also holds a well-formed block that alone yields a thread. -/
theorem claim6_counterexample :
    qualifies badRaw = true ∧
    parseOracle badRaw = none ∧
    scrapeThreadMain parseOracle [badRaw, goodRaw] = .error "JSONDecodeError" ∧
    scrapeThreadMain parseOracle [goodRaw] = .ok ⟨sampleRecord, []⟩ := by
  exact ⟨rfl, rfl, rfl, rfl⟩

/-- Claim C6 (amended): in `scrape_thread_page` of `en_thread_parser` a
qualifying block with malformed JSON is caught and skipped and the
remaining blocks of the page are processed exactly as if the malformed
block were absent; in `main.scrape_thread` the parse is unguarded and a
malformed qualifying block aborts the extraction of the page. -/
theorem claim6_amended (parse : String → Option JVal)
    (pre rest : List String) (bad : String)
    (hq : qualifies bad = true) (hp : parse bad = none) :
    scrapeThreadPageEn parse (pre ++ bad :: rest) =
      scrapeThreadPageEn parse (pre ++ rest) := by
  unfold scrapeThreadPageEn
  rw [foldlM_skip (processBlockEn parse) bad
    (fun st => processBlockEn_malformed parse st bad hq hp) pre rest]

/-- Claim C6 witness: removing the concrete malformed block from the
fixture page leaves the result of the en page scan unchanged. -/
theorem claim6_witness :
    scrapeThreadPageEn parseOracle ([plainRaw] ++ badRaw :: [goodRaw]) =
      scrapeThreadPageEn parseOracle ([plainRaw] ++ [goodRaw]) :=
  claim6_amended parseOracle [plainRaw] [goodRaw] badRaw rfl rfl

/-! ## Claim C7 -/

/-- A block lacking one of the two markers is a no-op for the block step
of `scrape_thread_page`. -/
theorem processBlockEn_unqualified (parse : String → Option JVal)
    (st : List EnRecord × List String) (raw : String)
    (hq : qualifies raw = false) :
    processBlockEn parse st raw = .ok st := by
  simp [processBlockEn, hq]

/-- The block step only consults the parse oracle on qualifying blocks. -/
theorem processBlockEn_congr (p1 p2 : String → Option JVal) (raw : String)
    (h : qualifies raw = true → p1 raw = p2 raw)
    (st : List EnRecord × List String) :
    processBlockEn p1 st raw = processBlockEn p2 st raw := by
  by_cases hq : qualifies raw
  · simp [processBlockEn, hq, h hq]
  · simp [processBlockEn, hq]

/-- The en page scan only consults the parse oracle on qualifying
blocks. -/
theorem scanEn_congr (p1 p2 : String → Option JVal) :
    ∀ (ds : List String) (st : List EnRecord × List String),
      (∀ s ∈ ds, qualifies s = true → p1 s = p2 s) →
      ds.foldlM (processBlockEn p1) st = ds.foldlM (processBlockEn p2) st := by
  intro ds
  induction ds with
  | nil => intro st _; rfl
  | cons a ds ih =>
    intro st h
    simp only [List.foldlM_cons]
    rw [processBlockEn_congr p1 p2 a (h a (by simp))]
    cases processBlockEn p2 st a with
    | error e => rfl
    | ok st2 => exact ih st2 (fun s hs => h s (by simp [hs]))

/-- `main.scrape_thread` skips a block lacking one of the two markers. -/
theorem scrapeThreadMain_skip (parse : String → Option JVal)
    (pre rest : List String) (b : String) (hq : qualifies b = false) :
    scrapeThreadMain parse (pre ++ b :: rest) =
      scrapeThreadMain parse (pre ++ rest) := by
  induction pre with
  | nil => simp [scrapeThreadMain, hq]
  | cons a pre ih =>
    simp only [List.cons_append, scrapeThreadMain]
    by_cases hqa : qualifies a
    · simp only [hqa, if_true]
      cases parse a with
      | none => rfl
      | some data =>
        by_cases hempty : (nestedLookup "thread_items" data).isEmpty
        · simp [hempty, ih]
        · simp [hempty]
    · simp [hqa, ih]

/-- `main.scrape_thread` only consults the parse oracle on qualifying
blocks. -/
theorem scrapeThreadMain_congr (p1 p2 : String → Option JVal) :
    ∀ ds : List String,
      (∀ s ∈ ds, qualifies s = true → p1 s = p2 s) →
      scrapeThreadMain p1 ds = scrapeThreadMain p2 ds := by
  intro ds
  induction ds with
  | nil => intro _; rfl
  | cons a ds ih =>
    intro h
    simp only [scrapeThreadMain]
    by_cases hqa : qualifies a
    · rw [h a (by simp) hqa]
      simp only [hqa, if_true]
      cases p2 a with
      | none => rfl
      | some data =>
        by_cases hempty : (nestedLookup "thread_items" data).isEmpty
        · simp [hempty, ih (fun s hs => h s (by simp [hs]))]
        · simp [hempty]
    · simp [hqa, ih (fun s hs => h s (by simp [hs]))]

/-- Claim C7: a script block missing either marker literal contributes
nothing — removing it changes neither `scrape_thread_page` nor
`scrape_thread` — and neither function ever consults the JSON parser on
such a block (their results are independent of what the parser would
return on non-qualifying input); the substring test is case-sensitive,
so a lowercase variant of the structural marker does not qualify. -/
theorem claim7_theorem (parse p1 p2 : String → Option JVal)
    (pre rest ds : List String) (b : String)
    (hq : qualifies b = false)
    (hagree : ∀ s ∈ ds, qualifies s = true → p1 s = p2 s) :
    scrapeThreadPageEn parse (pre ++ b :: rest) =
      scrapeThreadPageEn parse (pre ++ rest) ∧
    scrapeThreadMain parse (pre ++ b :: rest) =
      scrapeThreadMain parse (pre ++ rest) ∧
    scrapeThreadPageEn p1 ds = scrapeThreadPageEn p2 ds ∧
    scrapeThreadMain p1 ds = scrapeThreadMain p2 ds ∧
    qualifies "scheduledserverjs with thread_items" = false := by
  refine ⟨?_, scrapeThreadMain_skip parse pre rest b hq, ?_,
    scrapeThreadMain_congr p1 p2 ds hagree, by rfl⟩
  · unfold scrapeThreadPageEn
    rw [foldlM_skip (processBlockEn parse) b
      (fun st => processBlockEn_unqualified parse st b hq) pre rest]
  · unfold scrapeThreadPageEn
    rw [scanEn_congr p1 p2 ds ([], []) hagree]

/-- Claim C7 witness: concrete instance — dropping the marker-less block
from the fixture page changes nothing, and the two scans do not depend on
how the parser behaves on it. -/
theorem claim7_witness :
    scrapeThreadPageEn parseOracle ([] ++ plainRaw :: [goodRaw]) =
      scrapeThreadPageEn parseOracle ([] ++ [goodRaw]) ∧
    scrapeThreadMain parseOracle [plainRaw, goodRaw] =
      scrapeThreadMain parseOracleAlt [plainRaw, goodRaw] := by
  have h := claim7_theorem parseOracle parseOracle parseOracleAlt
    [] [goodRaw] [plainRaw, goodRaw] plainRaw rfl ?_
  · exact ⟨h.1, h.2.2.2.1⟩
  · intro s hs hqs
    simp only [List.mem_cons, List.not_mem_nil, or_false] at hs
    rcases hs with rfl | rfl
    · exact absurd hqs (by decide)
    · rfl

/-! ## Claim C8 -/

/-- Invariant of the dedup fold: when the seen set holds exactly the ids
of the accepted posts, accepted ids stay duplicate-free and the accepted
id set grows by exactly the ids of the input. -/
theorem feedRecords_invariant :
    ∀ (rs : List EnRecord) (posts : List EnRecord) (seen : List String),
      (posts.map fun r => pyStr r.id).Nodup →
      (∀ p, p ∈ seen ↔ p ∈ posts.map fun r => pyStr r.id) →
      (((feedRecords (posts, seen) rs).1.map fun r => pyStr r.id).Nodup ∧
        ∀ p, p ∈ ((feedRecords (posts, seen) rs).1.map fun r => pyStr r.id) ↔
          (p ∈ posts.map fun r => pyStr r.id) ∨
            p ∈ rs.map fun r => pyStr r.id) := by
  intro rs
  induction rs with
  | nil =>
    intro posts seen hnodup hseen
    refine ⟨hnodup, fun p => ?_⟩
    simp [feedRecords]
  | cons r rs ih =>
    intro posts seen hnodup hseen
    by_cases hmem : pyStr r.id ∈ seen
    · have hstep : feedRecords (posts, seen) (r :: rs) =
          feedRecords (posts, seen) rs := by
        simp [feedRecords, acceptPost, hmem]
      rw [hstep]
      obtain ⟨h1, h2⟩ := ih posts seen hnodup hseen
      refine ⟨h1, fun p => ?_⟩
      rw [h2 p]
      have hr : pyStr r.id ∈ posts.map fun r => pyStr r.id :=
        (hseen (pyStr r.id)).1 hmem
      constructor
      · rintro (h | h)
        · exact Or.inl h
        · exact Or.inr (by simp [h])
      · rintro (h | h)
        · exact Or.inl h
        · simp only [List.map_cons, List.mem_cons] at h
          rcases h with h | h
          · exact Or.inl (h ▸ hr)
          · exact Or.inr h
    · have hstep : feedRecords (posts, seen) (r :: rs) =
          feedRecords (posts ++ [r], pyStr r.id :: seen) rs := by
        simp [feedRecords, acceptPost, hmem]
      rw [hstep]
      have hnotposts : pyStr r.id ∉ posts.map fun r => pyStr r.id :=
        fun h => hmem ((hseen (pyStr r.id)).2 h)
      have hnodup2 : ((posts ++ [r]).map fun r => pyStr r.id).Nodup := by
        simp only [List.map_append, List.map_cons, List.map_nil]
        rw [List.nodup_append]
        refine ⟨hnodup, List.nodup_singleton _, ?_⟩
        intro a ha hb
        simp only [List.mem_singleton] at hb
        subst hb
        exact hnotposts ha
      have hseen2 : ∀ p, p ∈ pyStr r.id :: seen ↔
          p ∈ (posts ++ [r]).map fun r => pyStr r.id := by
        intro p
        simp only [List.mem_cons, List.map_append, List.map_cons,
          List.map_nil, List.mem_append, List.mem_singleton]
        rw [hseen p]
        tauto
      obtain ⟨h1, h2⟩ := ih (posts ++ [r]) (pyStr r.id :: seen) hnodup2 hseen2
      refine ⟨h1, fun p => ?_⟩
      rw [h2 p]
      simp only [List.map_append, List.map_cons, List.map_nil,
        List.mem_append, List.mem_singleton, List.mem_cons]
      tauto

/-- Claim C8: feeding any finite sequence of records (duplicated ids or
not, in any order) through the dedup of `scrape_thread_page` starting
from an empty seen set accepts exactly one record per distinct
stringified id, and the accepted id set equals the distinct-id set of the
input. -/
theorem claim8_theorem (rs : List EnRecord) :
    (((feedRecords ([], []) rs).1.map fun r => pyStr r.id).Nodup) ∧
    (∀ p, p ∈ ((feedRecords ([], []) rs).1.map fun r => pyStr r.id) ↔
      p ∈ rs.map fun r => pyStr r.id) := by
  obtain ⟨h1, h2⟩ := feedRecords_invariant rs [] []
    (by simp) (by simp)
  refine ⟨h1, fun p => ?_⟩
  rw [h2 p]
  simp

/-! ## Claim C9 -/

/-- Claim C9: in single-post mode, whenever the extraction scan of
`main.scrape_thread` produces a non-empty record list for a page, the
function returns exactly the first extracted record (in document order)
as the thread and all subsequently extracted records as its replies. -/
theorem claim9_theorem (parse : String → Option JVal) :
    ∀ (ds : List String) (t : MainRecord) (ts : List MainRecord),
      extractedRecordsMain parse ds = .ok (t :: ts) →
      scrapeThreadMain parse ds = .ok ⟨t, ts⟩ := by
  intro ds
  induction ds with
  | nil =>
    intro t ts h
    exact absurd h (by simp [extractedRecordsMain])
  | cons raw rest ih =>
    intro t ts h
    simp only [extractedRecordsMain] at h
    simp only [scrapeThreadMain]
    by_cases hq : qualifies raw
    · simp only [hq, if_true] at h ⊢
      cases hp : parse raw with
      | none => rw [hp] at h; exact absurd h (by simp)
      | some data =>
        rw [hp] at h
        by_cases hempty : (nestedLookup "thread_items" data).isEmpty
        · simp only [hempty, if_true] at h ⊢
          exact ih t ts h
        · simp only [hempty, Bool.false_eq_true, if_false] at h ⊢
          rw [h]
    · simp only [hq, if_false] at h ⊢
      exact ih t ts h

/-- Claim C9 witness: on the fixture page the scan extracts exactly
`[sampleRecord]`, and `scrape_thread` returns it as the root with no
replies. -/
theorem claim9_witness :
    scrapeThreadMain parseOracle [plainRaw, goodRaw] =
      .ok ⟨sampleRecord, []⟩ :=
  claim9_theorem parseOracle [plainRaw, goodRaw] sampleRecord [] rfl

/-! ## Claim C10 -/

/-- Claim C10: in single-post mode, if every script block of the page
either lacks one of the marker literals or parses to a document in which
the nested lookup finds no `thread_items` occurrence, `scrape_thread`
raises `ValueError("could not find thread data in page")` rather than
returning an empty or null result. -/
theorem claim10_theorem (parse : String → Option JVal) :
    ∀ ds : List String,
      (∀ raw ∈ ds, qualifies raw = false ∨
        ∃ d, parse raw = some d ∧ nestedLookup "thread_items" d = []) →
      scrapeThreadMain parse ds = .error "could not find thread data in page" := by
  intro ds
  induction ds with
  | nil => intro _; rfl
  | cons raw rest ih =>
    intro h
    have hrest := ih (fun s hs => h s (by simp [hs]))
    simp only [scrapeThreadMain]
    rcases h raw (by simp) with hq | ⟨d, hp, hnl⟩
    · simp [hq, hrest]
    · by_cases hq : qualifies raw
      · simp [hq, hp, hnl, hrest]
      · simp [hq, hrest]

/-- Claim C10 witness: the fixture page holding one marker-less block and
one qualifying block whose document has no `thread_items` key makes
`scrape_thread` raise the ValueError. -/
theorem claim10_witness :
    scrapeThreadMain parseOracle [plainRaw, emptyRaw] =
      .error "could not find thread data in page" := by
  refine claim10_theorem parseOracle [plainRaw, emptyRaw] ?_
  intro raw hraw
  simp only [List.mem_cons, List.not_mem_nil, or_false] at hraw
  rcases hraw with rfl | rfl
  · exact Or.inl (by decide)
  · exact Or.inr ⟨jobj [("a", .int 1)], rfl, rfl⟩

/-! ## Claim C3 -/

/-- Unfolding `countAt` at a successor round. -/
theorem countAt_succ (limit : Nat) (batches : Nat → List Nat) (s : Nat)
    (hs : 1 ≤ s) :
    countAt limit batches (s + 1) =
      processLinks limit (countAt limit batches s) (batches s) := by
  cases s with
  | zero => omega
  | succ t => rfl

/-- Unfolding `prevHeight` at a successor round. -/
theorem prevHeight_succ (h : Nat → Nat) (s : Nat) (hs : 1 ≤ s) :
    prevHeight h (s + 1) = h s := by
  cases s with
  | zero => omega
  | succ t => rfl

/-- The scroll loop, started at any round `s ≤ r` with the state that the
run reaches at round `s`, stops via the no-growth break exactly at the
first stable round `r`. -/
theorem scrapeLoop_reaches (limit : Nat) (batches : Nat → List Nat)
    (measure : Nat → Option Nat) (h : Nat → Nat) (r : Nat)
    (hm : ∀ s, measure s = some (h s))
    (hstable : h r = prevHeight h r)
    (hbefore : ∀ s, 1 ≤ s → s < r → h s ≠ prevHeight h s)
    (hcap : ∀ s, 1 ≤ s → s ≤ r → countAt limit batches s < limit) :
    ∀ (fuel s : Nat), 1 ≤ s → s ≤ r → r < s + fuel →
      scrapeLoop limit batches measure (countAt limit batches s)
          (prevHeight h s) s fuel =
        (processLinks limit (countAt limit batches r) (batches r), r,
          ExitReason.noGrowth) := by
  intro fuel
  induction fuel with
  | zero => intro s h1 h2 h3; omega
  | succ fuel ih =>
    intro s h1 h2 h3
    have hlt : ¬ limit ≤ countAt limit batches s :=
      Nat.not_le.2 (hcap s h1 h2)
    by_cases hsr : s = r
    · subst hsr
      simp only [scrapeLoop, hlt, if_false, hm s, ← hstable]
      simp
    · have hslt : s < r := lt_of_le_of_ne h2 hsr
      have hne : h s ≠ prevHeight h s := hbefore s h1 hslt
      simp only [scrapeLoop, hlt, if_false, hm s]
      rw [if_neg (fun heq => hne heq)]
      rw [← countAt_succ limit batches s h1, ← prevHeight_succ h s h1]
      exact ih (s + 1) (by omega) (by omega) (by omega)

/-- Claim C3: whenever the measured page extent first repeats the stored
extent at round `r` (the stable-round threshold of the code is one round: the
very first no-growth round ends the loop), the measurement succeeds on
every round, and the collected count stays below the cap through round
`r`, the scroll loop of `scrape_english_data` stops with the no-growth
break at exactly round `r` — neither at an earlier round nor at a later
one. -/
theorem claim3_theorem (limit fuel r : Nat) (batches : Nat → List Nat)
    (measure : Nat → Option Nat) (h : Nat → Nat)
    (hm : ∀ s, measure s = some (h s))
    (hr : 1 ≤ r) (hfuel : r ≤ fuel)
    (hstable : h r = prevHeight h r)
    (hbefore : ∀ s, 1 ≤ s → s < r → h s ≠ prevHeight h s)
    (hcap : ∀ s, 1 ≤ s → s ≤ r → countAt limit batches s < limit) :
    scrapeLoop limit batches measure 0 0 1 fuel =
      (processLinks limit (countAt limit batches r) (batches r), r,
        ExitReason.noGrowth) := by
  have h0 : countAt limit batches 1 = 0 := rfl
  have hp : prevHeight h 1 = 0 := rfl
  nth_rewrite 1 [← h0]
  nth_rewrite 1 [← hp]
  exact scrapeLoop_reaches limit batches measure h r hm hstable hbefore hcap
    fuel 1 (by omega) hr (by omega)

/-- Claim C3 witness: with a cap of 100, one record per page, and the
height measuring 10 every round, the first stable round is round 2
(round 1 sees 10 against the initial 0), and the loop stops there with
two collected records. -/
theorem claim3_witness :
    scrapeLoop 100 (fun _ => [1]) (fun _ => some 10) 0 0 1 5 =
      (2, 2, ExitReason.noGrowth) := by
  have h := claim3_theorem 100 5 2 (fun _ => [1]) (fun _ => some 10)
    (fun _ => 10) (fun s => rfl) (by omega) (by omega) (by rfl)
    (fun s h1 h2 => by
      have hs : s = 1 := by omega
      subst hs
      decide)
    (fun s h1 h2 => by
      interval_cases s <;> decide)
  exact h.trans rfl

/-! ## Claim C4 -/

/-- The inner link loop stops the moment the cap is reached: the batch
that reaches it is appended whole and no later batch is touched. -/
theorem processLinks_stop (limit c b : Nat) (rest : List Nat)
    (h : limit ≤ c + b) :
    processLinks limit c (b :: rest) = c + b := by
  simp [processLinks, h]

/-- Starting below the cap, one round of link collection cannot exceed
the cap plus one page batch (minus one). -/
theorem processLinks_bound (limit B : Nat) :
    ∀ (bs : List Nat) (c : Nat), c < limit → (∀ b ∈ bs, b ≤ B) →
      processLinks limit c bs ≤ limit - 1 + B := by
  intro bs
  induction bs with
  | nil => intro c hc _; simp [processLinks]; omega
  | cons b rest ih =>
    intro c hc hB
    have hb : b ≤ B := hB b (by simp)
    simp only [processLinks]
    by_cases hle : limit ≤ c + b
    · simp only [hle, if_true]
      omega
    · simp only [hle, if_false]
      exact ih (c + b) (by omega) (fun x hx => hB x (by simp [hx]))

/-- The final count of the scroll loop never exceeds the larger of the
starting count and the cap-plus-one-batch bound. -/
theorem scrapeLoop_bound (limit B : Nat) (batches : Nat → List Nat)
    (measure : Nat → Option Nat)
    (hB : ∀ s b, b ∈ batches s → b ≤ B) :
    ∀ (fuel c l r : Nat),
      (scrapeLoop limit batches measure c l r fuel).1 ≤
        max c (limit - 1 + B) := by
  intro fuel
  induction fuel with
  | zero => intro c l r; simp [scrapeLoop]
  | succ fuel ih =>
    intro c l r
    by_cases hc : limit ≤ c
    · simp [scrapeLoop, hc]
    · have hbound : processLinks limit c (batches r) ≤ limit - 1 + B :=
        processLinks_bound limit B (batches r) c (by omega) (hB r)
      simp only [scrapeLoop, hc, if_false]
      cases hmr : measure r with
      | none => simp; omega
      | some hh =>
        by_cases hl : hh = l
        · simp [hl]; omega
        · simp only [hl, if_false]
          calc (scrapeLoop limit batches measure
                  (processLinks limit c (batches r)) hh (r + 1) fuel).1
              ≤ max (processLinks limit c (batches r)) (limit - 1 + B) := ih _ _ _
            _ ≤ limit - 1 + B := by omega
            _ ≤ max c (limit - 1 + B) := le_max_right _ _

/-- Claim C4: the loop of `scrape_english_data` stops collecting once the
accepted count reaches the cap — at a round boundary it exits at once
with the count unchanged, and inside a round the batch that reaches the
cap is the last one appended — and when every post page contributes at
most `B` newly accepted records, a run started from zero never ends with
more than `limit + B` records. -/
theorem claim4_theorem (limit B fuel count last r : Nat)
    (batches : Nat → List Nat) (measure : Nat → Option Nat)
    (hB : ∀ s b, b ∈ batches s → b ≤ B) (hfuel : 1 ≤ fuel) :
    (limit ≤ count →
      scrapeLoop limit batches measure count last r fuel =
        (count, r, ExitReason.capReached)) ∧
    (∀ (c b : Nat) (rest : List Nat), limit ≤ c + b →
      processLinks limit c (b :: rest) = c + b) ∧
    (scrapeLoop limit batches measure 0 last r fuel).1 ≤ limit + B := by
  refine ⟨?_, fun c b rest hcb => processLinks_stop limit c b rest hcb, ?_⟩
  · intro hcount
    obtain ⟨f, rfl⟩ : ∃ f, fuel = f + 1 := ⟨fuel - 1, by omega⟩
    simp [scrapeLoop, hcount]
  · by_cases hlim : limit = 0
    · subst hlim
      obtain ⟨f, rfl⟩ : ∃ f, fuel = f + 1 := ⟨fuel - 1, by omega⟩
      simp [scrapeLoop]
    · have h := scrapeLoop_bound limit B batches measure hB fuel 0 last r
      have : max 0 (limit - 1 + B) = limit - 1 + B := by omega
      omega

/-- Claim C4 witness: cap 5, a single page batch of 7 per round — the
loop stops at the cap check of round 2 with 7 records, within the bound
5 + 7. -/
theorem claim4_witness :
    scrapeLoop 5 (fun _ => [7]) (fun _ => some 1) 7 0 2 3 =
      (7, 2, ExitReason.capReached) ∧
    (scrapeLoop 5 (fun _ => [7]) (fun _ => some 1) 0 0 1 3).1 ≤ 12 := by
  have h := claim4_theorem 5 7 3 7 0 1 (fun _ => [7]) (fun _ => some 1)
    (fun s b hb => by simp at hb; omega) (by omega)
  have h2 := claim4_theorem 5 7 3 7 0 2 (fun _ => [7]) (fun _ => some 1)
    (fun s b hb => by simp at hb; omega) (by omega)
  exact ⟨h2.1 (by omega), h.2.2⟩
